import Mathlib

/-!
Verification development for the NASA-Space-Search-Engine repository.

The definitions below are a shallow embedding of the TypeScript code in
`NASA Frontend/src/pages/Search.tsx` (knowledge-graph derivation, key-finding
generation, and search-result normalization) together with a model of the
backend search aggregator, which is described by the specification but whose
implementation is not part of the shipped sources.

JavaScript idioms are embedded explicitly:
* a possibly-absent (`undefined`/`null`) field is an `Option`;
* `a || b` on strings/numbers/booleans falls through on falsy values
  (`undefined`, `""`, `0`, `false`), modelled by the `jsOr*` helpers
  (arrays are truthy even when empty, so only absence falls through);
* `String.prototype.includes` is the substring test `strIncludes`;
* `String.prototype.toLowerCase` is `lowerStr` (ASCII case folding);
* `Array.prototype.sort` with a numeric comparator is a stable sort
  (guaranteed since ES2019), modelled by the stable insertion sort
  `stableSortDesc`, which agrees with every stable sort for a total
  preorder comparator.
-/

namespace NasaSearch

/-! ## JavaScript string and truthiness helpers -/

/-- ASCII lower-casing of a string, modelling `String.prototype.toLowerCase`. -/
def lowerStr (s : String) : String :=
  String.mk (s.data.map Char.toLower)

/-- Substring occurrence on character lists: `pat` occurs somewhere in `s`. -/
def listContainsSub (pat : List Char) : List Char → Bool
  | [] => pat.isEmpty
  | c :: rest => pat.isPrefixOf (c :: rest) || listContainsSub pat rest

/-- Models JavaScript `s.includes(pat)`. -/
def strIncludes (s pat : String) : Bool :=
  listContainsSub pat.data s.data

/-- Models `x || d` for a possibly-absent string (`""` is falsy). -/
def jsOrStr (x : Option String) (d : String) : String :=
  match x with
  | none => d
  | some s => if s == "" then d else s

/-- Models `x || d` for a possibly-absent array (arrays are always truthy). -/
def jsOrArr (x : Option (List String)) (d : List String) : List String :=
  match x with
  | none => d
  | some a => a

/-- Models `x || d` for a possibly-absent number (`0` is falsy). -/
def jsOrQ (x : Option ℚ) (d : ℚ) : ℚ :=
  match x with
  | none => d
  | some v => if v == 0 then d else v

/-- Models `x || d` for a possibly-absent boolean (`false` is falsy). -/
def jsOrBool (x : Option Bool) (d : Bool) : Bool :=
  match x with
  | none => d
  | some b => if b == false then d else b

/-- Digit run to a natural number, most significant first. -/
def natOfDigits (ds : List Char) : Nat :=
  ds.foldl (fun a c => a * 10 + (c.toNat - 48)) 0

/-- Models JavaScript `parseInt` on a string (base 10): skip leading
whitespace, optional sign, then a maximal run of decimal digits; `none`
models the `NaN` result when no digits are found. -/
def parseIntJS (s : String) : Option Int :=
  let cs := s.data.dropWhile Char.isWhitespace
  let core : List Char → Int → Option Int := fun l sgn =>
    let ds := l.takeWhile Char.isDigit
    if ds.isEmpty then none else some (sgn * (Int.ofNat (natOfDigits ds)))
  match cs with
  | [] => none
  | c :: rest =>
    if c == '-' then core rest (-1)
    else if c == '+' then core rest 1
    else core (c :: rest) 1

/-! ## Raw records

A raw record as received from the backend / CSV sources.  The frontend treats
records as untyped (`any`), reading the fields below; each is optional. -/

structure RawItem where
  title : Option String := none
  Title : Option String := none
  content_type : Option String := none
  type : Option String := none
  mission : Option String := none
  organization : Option String := none
  date : Option String := none
  publication_date : Option String := none
  abstract : Option String := none
  Description : Option String := none
  description : Option String := none
  tags : Option (List String) := none
  keywords : Option (List String) := none
  url : Option String := none
  Link : Option String := none
  link : Option String := none
  source : Option String := none
  search_source : Option String := none
  is_nasa_api : Option Bool := none
  relevance_score : Option ℚ := none
deriving DecidableEq

/-- A raw record with every field absent. -/
def emptyRaw : RawItem := {}

/-! ## Knowledge-graph derivation (`generateKnowledgeGraph` in Search.tsx) -/

/-- A connected node of the knowledge graph. -/
structure KGNode where
  name : String
  category : String
  priority : Nat
deriving DecidableEq

/-- The fixed tag-to-category table of `getCategoryForTag`. -/
def categoryPairs : List (String × String) :=
  [("Human Research", "Domain"),
   ("Plant Biology", "Life Science"),
   ("Cell Biology", "Life Science"),
   ("Bone Research", "Physiology"),
   ("Muscle Research", "Physiology"),
   ("Space Radiation", "Environment"),
   ("Microgravity", "Environment"),
   ("Technology Development", "Innovation"),
   ("ISS Research", "Platform"),
   ("OSDR Data", "Data Repository")]

/-- `getCategoryForTag`: table lookup with default `"Research Area"`. -/
def getCategoryForTag (tag : String) : String :=
  (categoryPairs.lookup tag).getD "Research Area"

/-- The fixed tag-to-priority table of `getTagPriority`. -/
def priorityPairs : List (String × Nat) :=
  [("Human Research", 10),
   ("Technology Development", 9),
   ("Plant Biology", 8),
   ("Space Radiation", 7),
   ("Microgravity", 7),
   ("Bone Research", 6),
   ("Cell Biology", 6),
   ("Muscle Research", 5),
   ("ISS Research", 4)]

/-- `getTagPriority`: table lookup with default `3`. -/
def getTagPriority (tag : String) : Nat :=
  (priorityPairs.lookup tag).getD 3

/-- Condition of the first central-concept branch. -/
def humanCond (tags : List String) (title : String) : Bool :=
  tags.contains "Human Research" || strIncludes (lowerStr title) "human" ||
    strIncludes (lowerStr title) "astronaut"

/-- Condition of the technology central-concept branch. -/
def techCond (tags : List String) (title : String) : Bool :=
  tags.contains "Technology Development" || strIncludes (lowerStr title) "technology" ||
    strIncludes (lowerStr title) "device"

/-- Condition of the plant central-concept branch. -/
def plantCond (tags : List String) (title : String) : Bool :=
  tags.contains "Plant Biology" || strIncludes (lowerStr title) "plant" ||
    strIncludes (lowerStr title) "arabidopsis"

/-- Condition of the bone central-concept branch. -/
def boneCond (tags : List String) (title : String) : Bool :=
  tags.contains "Bone Research" || strIncludes (lowerStr title) "bone" ||
    strIncludes (lowerStr title) "skeletal"

/-- Condition of the radiation central-concept branch. -/
def radiationCond (tags : List String) (title : String) : Bool :=
  tags.contains "Space Radiation" || strIncludes (lowerStr title) "radiation"

/-- Condition of the microgravity central-concept branch. -/
def microgravityCond (tags : List String) (title : String) : Bool :=
  tags.contains "Microgravity" || strIncludes (lowerStr title) "microgravity"

/-- Condition of the cell central-concept branch. -/
def cellCond (tags : List String) (title : String) : Bool :=
  tags.contains "Cell Biology" || strIncludes (lowerStr title) "cell" ||
    strIncludes (lowerStr title) "cellular"

/-- Condition of the muscle central-concept branch. -/
def muscleCond (tags : List String) (title : String) : Bool :=
  tags.contains "Muscle Research" || strIncludes (lowerStr title) "muscle"

/-- The central-concept selection of `generateKnowledgeGraph`: the
if/else-if chain over tags and lower-cased title keywords. -/
def centralConceptOf (tags : List String) (title : String) : String :=
  if humanCond tags title then "Human Space Research"
  else if techCond tags title then "Space Technology"
  else if plantCond tags title then "Space Plant Science"
  else if boneCond tags title then "Bone & Skeletal Research"
  else if radiationCond tags title then "Space Radiation Studies"
  else if microgravityCond tags title then "Microgravity Research"
  else if cellCond tags title then "Space Cell Biology"
  else if muscleCond tags title then "Muscle Physiology"
  else "Space Research"

/-- Push a node, recording its name in the `addedNodes` set
(the code pushes to `connectedNodes` and `addedNodes` together). -/
def pushNode (n : KGNode) (st : List KGNode × List String) :
    List KGNode × List String :=
  (st.1 ++ [n], st.2 ++ [n.name])

/-- One step of the `tags.forEach` loop in `generateKnowledgeGraph`. -/
def addTagNode (central : String) (st : List KGNode × List String)
    (tag : String) : List KGNode × List String :=
  if tag != "Space Biology" && !(strIncludes (lowerStr central) (lowerStr tag)) &&
      !(st.2.contains tag) then
    pushNode ⟨tag, getCategoryForTag tag, getTagPriority tag⟩ st
  else st

/-- One of the contextual-node additions of `generateKnowledgeGraph`:
push `n` when `cond` holds and `n.name` is not already added. -/
def addCtxNode (cond : Bool) (n : KGNode) (st : List KGNode × List String) :
    List KGNode × List String :=
  if cond && !(st.2.contains n.name) then pushNode n st else st

/-- Field reads at the top of `generateKnowledgeGraph`. -/
def kgTags (item : RawItem) : List String := jsOrArr item.tags []

/-- `item.title || ''`. -/
def kgTitle (item : RawItem) : String := jsOrStr item.title ""

/-- `item.type || 'Research'`. -/
def kgType (item : RawItem) : String := jsOrStr item.type "Research"

/-- `item.abstract || ''`. -/
def kgAbstract (item : RawItem) : String := jsOrStr item.abstract ""

/-- The connected-node accumulation of `generateKnowledgeGraph`, in source
order: the tag loop, then the four contextual additions, tracking the
`addedNodes` set alongside. -/
def encounteredState (item : RawItem) : List KGNode × List String :=
  let tags := kgTags item
  let title := kgTitle item
  let ty := kgType item
  let ab := kgAbstract item
  let central := centralConceptOf tags title
  let lt := lowerStr title
  let la := lowerStr ab
  let st0 := tags.foldl (addTagNode central) ([], [])
  let st1 := addCtxNode (ty == "Task Book Grants")
    ⟨"ISS Operations", "Platform", 8⟩ st0
  let st2 := addCtxNode
    (strIncludes lt "gene" || strIncludes lt "expression" || strIncludes la "gene")
    ⟨"Genomics", "Method", 7⟩ st1
  let st3 := addCtxNode
    (strIncludes lt "protein" || strIncludes lt "molecular" || strIncludes la "molecular")
    ⟨"Molecular Analysis", "Method", 6⟩ st2
  let st4 := addCtxNode
    (strIncludes lt "growth" || strIncludes lt "development")
    ⟨"Growth Studies", "Process", 5⟩ st3
  st4

/-- The connected nodes of `generateKnowledgeGraph` before sorting and
truncation, in the order they are first encountered. -/
def encounteredNodes (item : RawItem) : List KGNode :=
  (encounteredState item).1

/-! ### Stable descending sort (`Array.prototype.sort`, stable since ES2019) -/

/-- Insert `x` into `l`, skipping the elements strictly greater under `lt`. -/
def insertStable {α : Type} (lt : α → α → Bool) (x : α) : List α → List α
  | [] => [x]
  | y :: ys => if lt x y then y :: insertStable lt x ys else x :: y :: ys

/-- Stable insertion sort in descending order of the key compared by `lt`
(`lt a b` meaning `a`'s key is strictly below `b`'s). -/
def stableSortDesc {α : Type} (lt : α → α → Bool) : List α → List α
  | [] => []
  | x :: xs => insertStable lt x (stableSortDesc lt xs)

/-- Comparator modelling `(a, b) => b.priority - a.priority`. -/
def nodeLt (a b : KGNode) : Bool := decide (a.priority < b.priority)

/-- The result of `generateKnowledgeGraph`. -/
structure KGraph where
  centralConcept : String
  connectedNodes : List KGNode
deriving DecidableEq

/-- `generateKnowledgeGraph` from Search.tsx: central concept, then
connected nodes sorted by descending priority and truncated to 4. -/
def generateKnowledgeGraph (item : RawItem) : KGraph :=
  { centralConcept := centralConceptOf (kgTags item) (kgTitle item)
    connectedNodes := (stableSortDesc nodeLt (encounteredNodes item)).take 4 }

/-! ## Key findings (`generateKeyFindings` in Search.tsx) -/

/-- One tag-conditional push of `generateKeyFindings`. -/
def tagFinding (tags : List String) (tag msg : String) : List String :=
  if tags.contains tag then [msg] else []

/-- The `item.date && parseInt(item.date) >= 2020` guard. -/
def recentDate (date : Option String) : Bool :=
  match date with
  | none => false
  | some d =>
    d != "" && (match parseIntJS d with
      | none => false
      | some n => decide (n ≥ 2020))

/-- The findings accumulated by `generateKeyFindings` before the generic
fallback: the tag-driven pushes in source order, then the research-type
pushes. -/
def baseFindings (item : RawItem) : List String :=
  let tags := jsOrArr item.tags (jsOrArr item.keywords [])
  (if tags.length > 0 then
      tagFinding tags "Space Biology"
        "Significant contributions to space biology research" ++
      tagFinding tags "Microgravity"
        "Important insights into microgravity effects on biological systems" ++
      tagFinding tags "Space Radiation"
        "Key findings on space radiation impact and mitigation" ++
      tagFinding tags "Bone Research"
        "Critical discoveries in bone health during spaceflight" ++
      tagFinding tags "Muscle Research"
        "Essential findings on muscle adaptation in space environment" ++
      tagFinding tags "Cell Biology"
        "Fundamental cellular-level discoveries for space missions" ++
      tagFinding tags "Plant Biology"
        "Breakthrough research in plant growth and adaptation in space" ++
      tagFinding tags "Human Research"
        "Vital human health findings for long-duration space missions" ++
      tagFinding tags "ISS Research"
        "International Space Station research providing unique insights" ++
      tagFinding tags "Technology Development"
        "Innovative technology developments for space exploration"
    else []) ++
    (if item.type == some "Task Book Grants" then
      ["NASA-funded research project with strategic importance"]
    else if item.type == some "OSDR Data" then
      ["Open Science Data Repository findings available for further research"]
    else [])

/-- The generic fallback findings pushed when nothing specific applied. -/
def genericFindings (item : RawItem) : List String :=
  ["Research contributes to NASA's space exploration goals"] ++
  (if recentDate item.date then
    ["Recent research findings relevant to current space missions"]
  else [])

/-- `generateKeyFindings` from Search.tsx: tag-driven findings, then
type-driven findings, the generic fallback when empty, truncated to 3. -/
def generateKeyFindings (item : RawItem) : List String :=
  (if (baseFindings item).length == 0 then genericFindings item
   else baseFindings item).take 3

/-! ## Search-result normalization (`performSearch` in Search.tsx)

The `results.map((item, index) => ({...}))` transform.  The nested `details`
display object (methodology/overview/related-studies prose) is presentation
text not referenced by any verified property and is omitted from the record. -/

/-- A normalized search result as built by `performSearch`. -/
structure TResult where
  id : Nat
  title : String
  type : String
  mission : String
  date : String
  description : String
  tags : List String
  link : String
  source : String
  isNasaApi : Bool
  relevanceScore : ℚ
deriving DecidableEq

/-- The per-record transform of `performSearch` (`index` is 0-based). -/
def transformResult (index : Nat) (item : RawItem) : TResult :=
  { id := index + 1
    title := jsOrStr item.title (jsOrStr item.Title "Untitled")
    type := jsOrStr item.content_type (jsOrStr item.type "Research Papers")
    mission := jsOrStr item.mission "NASA Research"
    date := jsOrStr item.date "2024"
    description := jsOrStr item.abstract (jsOrStr item.Description "No description available")
    tags := jsOrArr item.tags (jsOrArr item.keywords ["space", "research"])
    link := jsOrStr item.url (jsOrStr item.Link (jsOrStr item.link "#"))
    source := jsOrStr item.source (jsOrStr item.search_source "NASA Database")
    isNasaApi := jsOrBool item.is_nasa_api false
    relevanceScore := jsOrQ item.relevance_score (1/2) }

/-- The whole `results.map` call: one output record per input record. -/
def transformAll (rs : List RawItem) : List TResult :=
  rs.enum.map (fun p => transformResult p.1 p.2)

/-! ## Backend search aggregator (modelled from the spec)

The FastAPI aggregation service (fan-out, deduplication, ranking,
orchestration — spec sections 4.2–4.4 and 7) is not among the shipped source
files; only its frontend callers are.  The definitions in this section are
therefore modelled from the specification's words. -/

/-- Modelled from the spec: a `SearchResult` as produced by the missing
backend normalizer, restricted to the fields the aggregator contracts
mention (title, source attribution, relevance score). -/
structure SResult where
  id : String
  title : String
  sourceName : String
  isLocal : Bool
  relevanceScore : ℚ
deriving DecidableEq

/-- Modelled from the spec: title normalization for duplicate detection —
case-folding plus whitespace normalization (split on whitespace, drop empty
fragments, rejoin with single spaces). -/
def normTitle (t : String) : String :=
  String.intercalate " " (((lowerStr t).split Char.isWhitespace).filter (fun w => w != ""))

/-- Modelled from the spec: the title tokens used for the token-overlap
similarity, after case folding. -/
def titleTokens (t : String) : List String :=
  (((lowerStr t).split Char.isWhitespace).filter (fun w => w != "")).dedup

/-- Modelled from the spec: token overlap ratio of two titles
(size of token intersection over size of token union). -/
def overlapScore (a b : String) : ℚ :=
  let ta := titleTokens a
  let tb := titleTokens b
  let inter := ta.filter (fun w => tb.contains w)
  let union := (ta ++ tb).dedup
  if union.length == 0 then 1 else (inter.length : ℚ) / (union.length : ℚ)

/-- Modelled from the spec: two results are duplicates when their normalized
titles are equal or their token overlap exceeds the fixed 0.85 threshold. -/
def isDuplicate (a b : SResult) : Bool :=
  normTitle a.title == normTitle b.title || decide (overlapScore a.title b.title > 85 / 100)

/-- Modelled from the spec: the duplicate-removal tie-break — a newcomer `r`
displaces the kept duplicate `k` only when `r` is local and `k` is not, or
both are external and `r` has the strictly higher relevance score; otherwise
the first-encountered result is kept. -/
def preferOver (r k : SResult) : Bool :=
  if r.isLocal && !k.isLocal then true
  else if k.isLocal then false
  else decide (k.relevanceScore < r.relevanceScore)

/-- Modelled from the spec: fold one merged result into the kept list.  The
first kept duplicate decides: the preferred one of the two is retained (on
displacement, later kept duplicates of the newcomer are removed as well);
with no kept duplicate the newcomer is appended. -/
def dedupInsert (r : SResult) : List SResult → List SResult
  | [] => [r]
  | k :: ks =>
    if isDuplicate k r then
      if preferOver r k then r :: ks.filter (fun y => !(isDuplicate y r)) else k :: ks
    else k :: dedupInsert r ks

/-- Modelled from the spec: remove duplicates from the merged sequence,
processing results in merge order. -/
def dedupResults (rs : List SResult) : List SResult :=
  rs.foldl (fun kept r => dedupInsert r kept) []

/-- Comparator for the final ranking: strictly lower relevance score. -/
def scoreLt (a b : SResult) : Bool :=
  decide (a.relevanceScore < b.relevanceScore)

/-- Modelled from the spec: the aggregator's `Done` payload — count, ranked
results, per-source counts, and the non-fatal per-source errors. -/
structure SearchResponse where
  count : Nat
  results : List SResult
  sourceCounts : List (String × Nat)
  errors : List (String × String)
deriving DecidableEq

/-- Modelled from the spec: the per-source error list — one entry per failed
external source, in registration order. -/
def externalErrors (externals : List (String × Except String (List SResult))) :
    List (String × String) :=
  externals.filterMap (fun p =>
    match p.2 with
    | .error e => some (p.1, e)
    | .ok _ => none)

/-- Modelled from the spec: the successfully fetched external records, in
source-registration order then within-source order. -/
def externalRecords (externals : List (String × Except String (List SResult))) :
    List SResult :=
  (externals.filterMap (fun p =>
    match p.2 with
    | .ok rs => some rs
    | .error _ => none)).flatten

/-- Modelled from the spec: the search aggregator orchestration given each
source's outcome.  A local-source failure fails the whole request; external
failures are recorded in `errors` while aggregation continues with merge,
deduplication, stable ranking by descending relevance, and truncation. -/
def searchModel (localOutcome : Except String (List SResult))
    (externals : List (String × Except String (List SResult)))
    (limit : Nat) : Except String SearchResponse :=
  match localOutcome with
  | .error e => .error e
  | .ok localResults =>
    let merged := localResults ++ externalRecords externals
    let deduped := dedupResults merged
    let ranked := stableSortDesc scoreLt deduped
    let final := ranked.take limit
    .ok { count := final.length
          results := final
          sourceCounts := ((final.map (fun r => r.sourceName)).dedup).map
            (fun n => (n, (final.filter (fun r => r.sourceName == n)).length))
          errors := externalErrors externals }

/-! ## Specification-side definitions and concrete inputs -/

/-- The central-concept table as the spec words it: a fixed priority-ordered
list of domain categories, each with its matching predicate over the item's
tags and title keywords.  The entries are the branch conditions of the
source's if/else-if chain, in source order. -/
def conceptEntries : List ((List String → String → Bool) × String) :=
  [(humanCond, "Human Space Research"),
   (techCond, "Space Technology"),
   (plantCond, "Space Plant Science"),
   (boneCond, "Bone & Skeletal Research"),
   (radiationCond, "Space Radiation Studies"),
   (microgravityCond, "Microgravity Research"),
   (cellCond, "Space Cell Biology"),
   (muscleCond, "Muscle Physiology")]

/-- Central-concept selection as the spec words it: the first matching entry
of `conceptEntries`, defaulting to `"Space Research"` when none matches. -/
def specCentralConcept (tags : List String) (title : String) : String :=
  ((conceptEntries.find? (fun e => e.1 tags title)).map (fun e => e.2)).getD
    "Space Research"

/-- Invariant of the connected-node accumulation: the `addedNodes` set is
exactly the list of node names, the names are distinct, and none of them is
`"Space Biology"`. -/
def KGInv (st : List KGNode × List String) : Prop :=
  st.2 = st.1.map KGNode.name ∧ (st.1.map KGNode.name).Nodup ∧
    ∀ n ∈ st.1, n.name ≠ "Space Biology"

/-- The Tempus ALS test record used by the repository's knowledge-graph
test (`NASA Backend/test_knowledge_graph.js`, first test case). -/
def tempusItem : RawItem :=
  { tags := some ["Human Research", "Technology Development", "ISS Research"],
    title := some "Tempus ALS ISS Technology Demonstration",
    type := some "Task Book Grants" }

/-- A raw record carrying an explicit relevance score of 0. -/
def zeroScoreRaw : RawItem := { relevance_score := some 0 }

/-- A raw record carrying an explicit relevance score of 0.9. -/
def highScoreRaw : RawItem := { relevance_score := some (9 / 10) }

/-- A sample normalized result from the local source. -/
def sampleLocal : SResult :=
  { id := "L1", title := "Microgravity Effects on Bone", sourceName := "local",
    isLocal := true, relevanceScore := 1 / 2 }

/-- The response the aggregator model produces for one local record and no
external sources, with limit 5. -/
def sampleResponse : SearchResponse :=
  { count := 1, results := [sampleLocal], sourceCounts := [("local", 1)],
    errors := [] }

/-! ## Lemmas about the stable insertion sort -/

theorem perm_insertStable {α : Type} (lt : α → α → Bool) (x : α) (l : List α) :
    List.Perm (insertStable lt x l) (x :: l) := by
  induction l with
  | nil => exact List.Perm.refl _
  | cons y ys ih =>
    simp only [insertStable]
    by_cases h : lt x y = true
    · rw [if_pos h]
      exact (ih.cons y).trans (List.Perm.swap x y ys)
    · rw [if_neg h]

theorem perm_stableSortDesc {α : Type} (lt : α → α → Bool) (l : List α) :
    List.Perm (stableSortDesc lt l) l := by
  induction l with
  | nil => exact List.Perm.refl _
  | cons x xs ih =>
    exact (perm_insertStable lt x (stableSortDesc lt xs)).trans (ih.cons x)

theorem pairwise_insertStable {α : Type} (lt : α → α → Bool)
    (htrans : ∀ a b c, lt a b = false → lt b c = false → lt a c = false)
    (hasym : ∀ a b, lt a b = true → lt b a = false)
    (x : α) (l : List α) (hl : l.Pairwise (fun a b => lt a b = false)) :
    (insertStable lt x l).Pairwise (fun a b => lt a b = false) := by
  induction l with
  | nil => simp [insertStable]
  | cons y ys ih =>
    simp only [insertStable]
    rcases List.pairwise_cons.1 hl with ⟨hy, hys⟩
    by_cases h : lt x y = true
    · rw [if_pos h]
      refine List.pairwise_cons.2 ⟨?_, ih hys⟩
      intro z hz
      rcases List.mem_cons.1 ((perm_insertStable lt x ys).mem_iff.1 hz) with hz | hz
      · rw [hz]; exact hasym x y h
      · exact hy z hz
    · rw [if_neg h]
      refine List.pairwise_cons.2 ⟨?_, hl⟩
      intro z hz
      rcases List.mem_cons.1 hz with hz | hz
      · rw [hz]; exact Bool.eq_false_iff.2 h
      · exact htrans x y z (Bool.eq_false_iff.2 h) (hy z hz)

theorem pairwise_stableSortDesc {α : Type} (lt : α → α → Bool)
    (htrans : ∀ a b c, lt a b = false → lt b c = false → lt a c = false)
    (hasym : ∀ a b, lt a b = true → lt b a = false)
    (l : List α) :
    (stableSortDesc lt l).Pairwise (fun a b => lt a b = false) := by
  induction l with
  | nil => simp [stableSortDesc]
  | cons x xs ih =>
    exact pairwise_insertStable lt htrans hasym x (stableSortDesc lt xs) ih

theorem filter_insertStable {α : Type} (lt : α → α → Bool) (p : α → Bool)
    (x : α) (l : List α)
    (hx : ∀ y, lt x y = true → p x = true → p y = true → False) :
    (insertStable lt x l).filter p = (x :: l).filter p := by
  induction l with
  | nil => rfl
  | cons y ys ih =>
    simp only [insertStable]
    by_cases h : lt x y = true
    · rw [if_pos h]
      by_cases hpx : p x = true
      · have hpy : p y = false := by
          by_cases hpy : p y = true
          · exact absurd (hx y h hpx hpy) (fun f => f)
          · exact Bool.eq_false_iff.2 hpy
        simp only [List.filter, hpy, hpx, ih]
      · have hpx' : p x = false := Bool.eq_false_iff.2 hpx
        simp only [List.filter, hpx'] at ih ⊢
        cases hpy : p y <;> simp only [ih]
    · rw [if_neg h]

theorem filter_stableSortDesc {α : Type} (lt : α → α → Bool) (p : α → Bool)
    (hp : ∀ a b, p a = true → p b = true → lt a b = false)
    (l : List α) :
    (stableSortDesc lt l).filter p = l.filter p := by
  induction l with
  | nil => rfl
  | cons x xs ih =>
    have hx : ∀ y, lt x y = true → p x = true → p y = true → False := by
      intro y hlt hpx hpy
      have := hp x y hpx hpy
      rw [this] at hlt
      exact Bool.false_ne_true hlt
    calc (stableSortDesc lt (x :: xs)).filter p
        = (x :: stableSortDesc lt xs).filter p :=
          filter_insertStable lt p x (stableSortDesc lt xs) hx
      _ = (x :: xs).filter p := by
          simp only [List.filter]
          cases hpx : p x <;> simp only [ih]

/-! ## Lemmas about the connected-node accumulation -/

theorem kginv_addTagNode (central : String) (st : List KGNode × List String)
    (tag : String) (h : KGInv st) : KGInv (addTagNode central st tag) := by
  unfold addTagNode
  by_cases hc : (tag != "Space Biology" &&
      !(strIncludes (lowerStr central) (lowerStr tag)) &&
      !(st.2.contains tag)) = true
  · rw [if_pos hc]
    obtain ⟨h1, h2, h3⟩ := h
    simp only [Bool.and_eq_true, Bool.not_eq_true'] at hc
    have hsb : tag ≠ "Space Biology" := bne_iff_ne.1 hc.1.1
    have hmem : tag ∉ st.1.map KGNode.name := by
      rw [← h1]
      simpa using hc.2
    refine ⟨?_, ?_, ?_⟩
    · simp only [pushNode, List.map_append, h1, List.map_cons, List.map_nil]
    · simp only [pushNode, List.map_append]
      rw [List.nodup_append]
      refine ⟨h2, List.nodup_singleton _, ?_⟩
      intro a ha hb
      simp only [List.map_cons, List.map_nil, List.mem_singleton] at hb
      rw [hb] at ha
      exact hmem ha
    · intro n hn
      simp only [pushNode, List.mem_append, List.mem_singleton] at hn
      rcases hn with hn | hn
      · exact h3 n hn
      · rw [hn]; exact hsb
  · rw [if_neg hc]; exact h

theorem kginv_foldTags (central : String) (tags : List String)
    (st : List KGNode × List String) (h : KGInv st) :
    KGInv (tags.foldl (addTagNode central) st) := by
  induction tags generalizing st with
  | nil => exact h
  | cons t ts ih => exact ih _ (kginv_addTagNode central st t h)

theorem kginv_addCtxNode (cond : Bool) (n : KGNode)
    (st : List KGNode × List String) (hname : n.name ≠ "Space Biology")
    (h : KGInv st) : KGInv (addCtxNode cond n st) := by
  unfold addCtxNode
  by_cases hc : (cond && !(st.2.contains n.name)) = true
  · rw [if_pos hc]
    obtain ⟨h1, h2, h3⟩ := h
    simp only [Bool.and_eq_true, Bool.not_eq_true'] at hc
    have hmem : n.name ∉ st.1.map KGNode.name := by
      rw [← h1]
      simpa using hc.2
    refine ⟨?_, ?_, ?_⟩
    · simp only [pushNode, List.map_append, h1, List.map_cons, List.map_nil]
    · simp only [pushNode, List.map_append]
      rw [List.nodup_append]
      refine ⟨h2, List.nodup_singleton _, ?_⟩
      intro a ha hb
      simp only [List.map_cons, List.map_nil, List.mem_singleton] at hb
      rw [hb] at ha
      exact hmem ha
    · intro m hm
      simp only [pushNode, List.mem_append, List.mem_singleton] at hm
      rcases hm with hm | hm
      · exact h3 m hm
      · rw [hm]; exact hname
  · rw [if_neg hc]; exact h

theorem kginv_encounteredState (item : RawItem) :
    KGInv (encounteredState item) := by
  refine kginv_addCtxNode _ _ _ (by decide) ?_
  refine kginv_addCtxNode _ _ _ (by decide) ?_
  refine kginv_addCtxNode _ _ _ (by decide) ?_
  refine kginv_addCtxNode _ _ _ (by decide) ?_
  exact kginv_foldTags _ _ _ ⟨rfl, List.nodup_nil, by simp⟩

/-! ## Lemmas about the modelled deduplication -/

theorem mem_dedupInsert (r z : SResult) (l : List SResult)
    (h : z ∈ dedupInsert r l) : z = r ∨ z ∈ l := by
  induction l with
  | nil => simpa [dedupInsert] using h
  | cons k ks ih =>
    simp only [dedupInsert] at h
    by_cases hd : isDuplicate k r = true
    · rw [if_pos hd] at h
      by_cases hp : preferOver r k = true
      · rw [if_pos hp] at h
        rcases List.mem_cons.1 h with h | h
        · exact Or.inl h
        · exact Or.inr (List.mem_cons_of_mem _ (List.mem_of_mem_filter h))
      · rw [if_neg hp] at h
        exact Or.inr h
    · rw [if_neg hd] at h
      rcases List.mem_cons.1 h with h | h
      · rw [h]; exact Or.inr (List.mem_cons_self _ _)
      · rcases ih h with h' | h'
        · exact Or.inl h'
        · exact Or.inr (List.mem_cons_of_mem _ h')

theorem pairwise_dedupInsert (r : SResult) (l : List SResult)
    (h : l.Pairwise (fun a b => normTitle a.title ≠ normTitle b.title)) :
    (dedupInsert r l).Pairwise (fun a b => normTitle a.title ≠ normTitle b.title) := by
  induction l with
  | nil => simp [dedupInsert]
  | cons k ks ih =>
    rcases List.pairwise_cons.1 h with ⟨hk, hks⟩
    simp only [dedupInsert]
    by_cases hd : isDuplicate k r = true
    · rw [if_pos hd]
      by_cases hp : preferOver r k = true
      · rw [if_pos hp]
        refine List.pairwise_cons.2
          ⟨?_, List.Pairwise.sublist (List.filter_sublist _) hks⟩
        intro y hy hEq
        have hnd : isDuplicate y r = false := by
          have := List.of_mem_filter hy
          simpa using this
        have hbeq : (normTitle y.title == normTitle r.title) = true :=
          beq_iff_eq.2 hEq.symm
        have : isDuplicate y r = true := by
          unfold isDuplicate
          rw [hbeq, Bool.true_or]
        rw [hnd] at this
        exact Bool.false_ne_true this
      · rw [if_neg hp]; exact h
    · rw [if_neg hd]
      refine List.pairwise_cons.2 ⟨?_, ih hks⟩
      intro y hy
      rcases mem_dedupInsert r y ks hy with h' | h'
      · rw [h']
        intro hEq
        have hbeq : (normTitle k.title == normTitle r.title) = true :=
          beq_iff_eq.2 hEq
        refine hd ?_
        unfold isDuplicate
        rw [hbeq, Bool.true_or]
      · exact hk y h'

theorem pairwise_dedupFold (rs acc : List SResult)
    (hacc : acc.Pairwise (fun a b => normTitle a.title ≠ normTitle b.title)) :
    (rs.foldl (fun kept r => dedupInsert r kept) acc).Pairwise
      (fun a b => normTitle a.title ≠ normTitle b.title) := by
  induction rs generalizing acc with
  | nil => exact hacc
  | cons r rest ih => exact ih _ (pairwise_dedupInsert r acc hacc)

theorem pairwise_dedupResults (rs : List SResult) :
    (dedupResults rs).Pairwise (fun a b => normTitle a.title ≠ normTitle b.title) :=
  pairwise_dedupFold rs [] List.Pairwise.nil

/-! ## Lemma for the central-concept refinement -/

theorem findEntry_cons_pos (tags : List String) (title : String)
    (c : List String → String → Bool) (s : String)
    (rest : List ((List String → String → Bool) × String))
    (h : c tags title = true) :
    List.find? (fun e => e.1 tags title) ((c, s) :: rest) = some (c, s) :=
  List.find?_cons_of_pos _ h

theorem findEntry_cons_neg (tags : List String) (title : String)
    (c : List String → String → Bool) (s : String)
    (rest : List ((List String → String → Bool) × String))
    (h : ¬c tags title = true) :
    List.find? (fun e => e.1 tags title) ((c, s) :: rest) =
      List.find? (fun e => e.1 tags title) rest :=
  List.find?_cons_of_neg _ h

theorem centralConcept_eq_spec (tags : List String) (title : String) :
    centralConceptOf tags title = specCentralConcept tags title := by
  unfold centralConceptOf specCentralConcept conceptEntries
  by_cases h1 : humanCond tags title = true
  · rw [if_pos h1, findEntry_cons_pos tags title _ _ _ h1]; rfl
  · rw [if_neg h1, findEntry_cons_neg tags title _ _ _ h1]
    by_cases h2 : techCond tags title = true
    · rw [if_pos h2, findEntry_cons_pos tags title _ _ _ h2]; rfl
    · rw [if_neg h2, findEntry_cons_neg tags title _ _ _ h2]
      by_cases h3 : plantCond tags title = true
      · rw [if_pos h3, findEntry_cons_pos tags title _ _ _ h3]; rfl
      · rw [if_neg h3, findEntry_cons_neg tags title _ _ _ h3]
        by_cases h4 : boneCond tags title = true
        · rw [if_pos h4, findEntry_cons_pos tags title _ _ _ h4]; rfl
        · rw [if_neg h4, findEntry_cons_neg tags title _ _ _ h4]
          by_cases h5 : radiationCond tags title = true
          · rw [if_pos h5, findEntry_cons_pos tags title _ _ _ h5]; rfl
          · rw [if_neg h5, findEntry_cons_neg tags title _ _ _ h5]
            by_cases h6 : microgravityCond tags title = true
            · rw [if_pos h6, findEntry_cons_pos tags title _ _ _ h6]; rfl
            · rw [if_neg h6, findEntry_cons_neg tags title _ _ _ h6]
              by_cases h7 : cellCond tags title = true
              · rw [if_pos h7, findEntry_cons_pos tags title _ _ _ h7]; rfl
              · rw [if_neg h7, findEntry_cons_neg tags title _ _ _ h7]
                by_cases h8 : muscleCond tags title = true
                · rw [if_pos h8, findEntry_cons_pos tags title _ _ _ h8]; rfl
                · rw [if_neg h8, findEntry_cons_neg tags title _ _ _ h8]; rfl

/-! ## Prefix helper lemmas -/

theorem isPre_take {α : Type} (n : Nat) (l : List α) : l.take n <+: l :=
  ⟨l.drop n, List.take_append_drop n l⟩

theorem isPre_filter {α : Type} (p : α → Bool) {l₁ l₂ : List α}
    (h : l₁ <+: l₂) : l₁.filter p <+: l₂.filter p := by
  obtain ⟨t, rfl⟩ := h
  exact ⟨t.filter p, (List.filter_append _ _).symm⟩

/-! ## Claims -/

/-- C1: knowledge-graph derivation is deterministic — two calls of
`generateKnowledgeGraph` on identical input yield an identical
`centralConcept` and an identical ordered list of `connectedNodes`. -/
theorem knowledgeGraph_deterministic (i j : RawItem) (h : i = j) :
    (generateKnowledgeGraph i).centralConcept =
      (generateKnowledgeGraph j).centralConcept ∧
    (generateKnowledgeGraph i).connectedNodes =
      (generateKnowledgeGraph j).connectedNodes := by
  rw [h]
  exact ⟨rfl, rfl⟩

/-- Witness for C1 at a concrete input. -/
theorem knowledgeGraph_deterministic_witness :
    (generateKnowledgeGraph emptyRaw).centralConcept =
      (generateKnowledgeGraph emptyRaw).centralConcept ∧
    (generateKnowledgeGraph emptyRaw).connectedNodes =
      (generateKnowledgeGraph emptyRaw).connectedNodes :=
  knowledgeGraph_deterministic emptyRaw emptyRaw rfl

/-- C2: `generateKnowledgeGraph` returns at most 4 connected nodes, ordered
by descending per-node priority weight, and nodes of equal priority keep
their first-encountered order (for every priority value, the output's nodes
of that priority are a prefix of the encountered nodes of that priority). -/
theorem knowledgeGraph_order (item : RawItem) :
    (generateKnowledgeGraph item).connectedNodes.length ≤ 4 ∧
    (generateKnowledgeGraph item).connectedNodes.Pairwise
      (fun a b => b.priority ≤ a.priority) ∧
    ∀ p : Nat,
      ((generateKnowledgeGraph item).connectedNodes.filter
        (fun n => n.priority == p)) <+:
      ((encounteredNodes item).filter (fun n => n.priority == p)) := by
  have htrans : ∀ a b c : KGNode,
      nodeLt a b = false → nodeLt b c = false → nodeLt a c = false := by
    intro a b c hab hbc
    simp only [nodeLt, decide_eq_false_iff_not, Nat.not_lt] at hab hbc ⊢
    omega
  have hasym : ∀ a b : KGNode, nodeLt a b = true → nodeLt b a = false := by
    intro a b hab
    simp only [nodeLt, decide_eq_true_eq] at hab
    simp only [nodeLt, decide_eq_false_iff_not, Nat.not_lt]
    omega
  refine ⟨?_, ?_, ?_⟩
  · exact List.length_take_le 4 _
  · have hs := pairwise_stableSortDesc nodeLt htrans hasym (encounteredNodes item)
    have hs' : (stableSortDesc nodeLt (encounteredNodes item)).Pairwise
        (fun a b => b.priority ≤ a.priority) := by
      refine hs.imp ?_
      intro a b hab
      simp only [nodeLt, decide_eq_false_iff_not, Nat.not_lt] at hab
      exact hab
    exact List.Pairwise.sublist (List.take_sublist 4 _) hs'
  · intro p
    have hp : ∀ a b : KGNode, (a.priority == p) = true →
        (b.priority == p) = true → nodeLt a b = false := by
      intro a b ha hb
      simp only [beq_iff_eq] at ha hb
      simp only [nodeLt, decide_eq_false_iff_not, Nat.not_lt]
      omega
    have h1 := isPre_filter (fun n => n.priority == p)
      (isPre_take 4 (stableSortDesc nodeLt (encounteredNodes item)))
    rw [filter_stableSortDesc nodeLt _ hp] at h1
    exact h1

/-- Witness for C2 at a concrete input. -/
theorem knowledgeGraph_order_witness :
    (generateKnowledgeGraph tempusItem).connectedNodes.length ≤ 4 :=
  (knowledgeGraph_order tempusItem).1

/-- C3: the central concept is the first matching entry of the fixed
priority-ordered category table `conceptEntries` (matched against the item's
tags and title keywords), and is `"Space Research"` when no entry matches. -/
theorem centralConcept_first_match (item : RawItem) :
    (generateKnowledgeGraph item).centralConcept =
      specCentralConcept (kgTags item) (kgTitle item) ∧
    ((∀ e ∈ conceptEntries, e.1 (kgTags item) (kgTitle item) = false) →
      (generateKnowledgeGraph item).centralConcept = "Space Research") := by
  constructor
  · exact centralConcept_eq_spec _ _
  · intro hall
    have h := centralConcept_eq_spec (kgTags item) (kgTitle item)
    have hnone : List.find? (fun e => e.1 (kgTags item) (kgTitle item))
        conceptEntries = none := by
      refine List.find?_eq_none.2 ?_
      intro e he
      rw [hall e he]
      exact Bool.false_ne_true
    calc (generateKnowledgeGraph item).centralConcept
        = specCentralConcept (kgTags item) (kgTitle item) := h
      _ = "Space Research" := by
          unfold specCentralConcept
          rw [hnone]
          rfl

/-- Witness for C3 at a concrete input (no entry matches the empty item). -/
theorem centralConcept_first_match_witness :
    (generateKnowledgeGraph emptyRaw).centralConcept = "Space Research" :=
  (centralConcept_first_match emptyRaw).2 (by decide)

/-- C4: for the Tempus ALS record (tags Human Research / Technology
Development / ISS Research, Task Book Grants type), the central concept is
the Human-Research-derived category, the connected nodes include an
ISS-related node, and Technology Development (priority 9) precedes
ISS Research (priority 4) in the output order. -/
theorem tempus_graph :
    (generateKnowledgeGraph tempusItem).centralConcept = "Human Space Research" ∧
    (∃ n ∈ (generateKnowledgeGraph tempusItem).connectedNodes,
      strIncludes n.name "ISS" = true) ∧
    "Technology Development" ∈
      (generateKnowledgeGraph tempusItem).connectedNodes.map KGNode.name ∧
    "ISS Research" ∈
      (generateKnowledgeGraph tempusItem).connectedNodes.map KGNode.name ∧
    ((generateKnowledgeGraph tempusItem).connectedNodes.map KGNode.name).indexOf
        "Technology Development" <
      ((generateKnowledgeGraph tempusItem).connectedNodes.map KGNode.name).indexOf
        "ISS Research" ∧
    getTagPriority "Technology Development" = 9 ∧
    getTagPriority "ISS Research" = 4 := by
  decide

/-- C5 counterexample: a record that provides the explicit relevance score 0
does not keep it — normalization replaces it with the 0.5 default, because
the JavaScript `||` fallback also fires on the falsy number 0. -/
theorem relevance_default_counterexample :
    zeroScoreRaw.relevance_score = some 0 ∧
    (transformResult 0 zeroScoreRaw).relevanceScore ≠ 0 ∧
    (transformResult 0 zeroScoreRaw).relevanceScore = 1 / 2 := by
  refine ⟨rfl, ?_, ?_⟩ <;> norm_num [transformResult, jsOrQ, zeroScoreRaw]

/-- C5 amended: every normalized result carries a relevance score; it is 0.5
when the record provides none or provides the falsy score 0, and the
provided score is kept otherwise. -/
theorem relevance_default_amended (r : RawItem) (i : Nat) :
    ((r.relevance_score = none ∨ r.relevance_score = some 0) →
      (transformResult i r).relevanceScore = 1 / 2) ∧
    (∀ v : ℚ, r.relevance_score = some v → v ≠ 0 →
      (transformResult i r).relevanceScore = v) := by
  constructor
  · intro h
    rcases h with h | h <;> simp [transformResult, jsOrQ, h]
  · intro v hv hvne
    simp [transformResult, jsOrQ, hv, hvne]

/-- Witness for the amended C5 at concrete inputs. -/
theorem relevance_default_witness :
    (transformResult 0 emptyRaw).relevanceScore = 1 / 2 ∧
    (transformResult 0 highScoreRaw).relevanceScore = 9 / 10 :=
  ⟨(relevance_default_amended emptyRaw 0).1 (Or.inl rfl),
   (relevance_default_amended highScoreRaw 0).2 (9 / 10) rfl (by norm_num)⟩

/-- C6: a raw record whose title candidates are entirely absent still
normalizes to exactly one result, whose title is `"Untitled"`. -/
theorem untitled_fallback (r : RawItem) (i : Nat)
    (h1 : r.title = none) (h2 : r.Title = none) :
    (transformResult i r).title = "Untitled" ∧ (transformAll [r]).length = 1 := by
  constructor
  · simp [transformResult, jsOrStr, h1, h2]
  · rfl

/-- Witness for C6 at a concrete input. -/
theorem untitled_fallback_witness :
    (transformResult 3 emptyRaw).title = "Untitled" ∧
    (transformAll [emptyRaw]).length = 1 :=
  untitled_fallback emptyRaw 3 rfl rfl

/-- C7 (aggregator modelled from the spec): in every successful aggregator
response, no two returned results have titles that are equal after
case-folding and whitespace normalization. -/
theorem dedup_invariant (localOutcome : Except String (List SResult))
    (externals : List (String × Except String (List SResult))) (limit : Nat)
    (resp : SearchResponse)
    (h : searchModel localOutcome externals limit = .ok resp) :
    resp.results.Pairwise (fun a b => normTitle a.title ≠ normTitle b.title) := by
  cases localOutcome with
  | error e => simp [searchModel] at h
  | ok lo =>
    simp only [searchModel, Except.ok.injEq] at h
    subst h
    have hd := pairwise_dedupResults (lo ++ externalRecords externals)
    have hperm := perm_stableSortDesc scoreLt
      (dedupResults (lo ++ externalRecords externals))
    have hsym : ∀ {x y : SResult}, normTitle x.title ≠ normTitle y.title →
        normTitle y.title ≠ normTitle x.title := fun hxy => hxy.symm
    have hsorted := (List.Perm.pairwise_iff hsym hperm).2 hd
    exact List.Pairwise.sublist (List.take_sublist limit _) hsorted

/-- Witness for C7 at a concrete input. -/
theorem dedup_invariant_witness :
    sampleResponse.results.Pairwise
      (fun a b => normTitle a.title ≠ normTitle b.title) :=
  dedup_invariant (.ok [sampleLocal]) [] 5 sampleResponse (by rfl)

/-- C8 (aggregator modelled from the spec): a local-source failure fails the
whole request (no degraded empty-result success), while external-source
failures never fail the request and appear exactly in the `errors` field. -/
theorem local_failure_fatal
    (externals : List (String × Except String (List SResult))) (limit : Nat) :
    (∀ e : String, searchModel (.error e) externals limit = .error e) ∧
    (∀ lo : List SResult, ∃ resp : SearchResponse,
      searchModel (.ok lo) externals limit = .ok resp ∧
      resp.errors = externalErrors externals) := by
  constructor
  · intro e
    rfl
  · intro lo
    exact ⟨_, rfl, rfl⟩

/-- Witness for C8 at concrete inputs. -/
theorem local_failure_fatal_witness :
    searchModel (.error "local source down")
      [("NASA Images", .error "timeout")] 5 = .error "local source down" :=
  (local_failure_fatal [("NASA Images", .error "timeout")] 5).1
    "local source down"

/-- C9: `generateKeyFindings` always returns between 1 and 3 findings. -/
theorem keyFindings_length (item : RawItem) :
    1 ≤ (generateKeyFindings item).length ∧
    (generateKeyFindings item).length ≤ 3 := by
  have hgen : 1 ≤ (genericFindings item).length := by
    unfold genericFindings
    cases h : recentDate item.date <;> simp [h]
  unfold generateKeyFindings
  constructor
  · rw [List.length_take]
    refine le_min (by norm_num) ?_
    by_cases hb : ((baseFindings item).length == 0) = true
    · rw [if_pos hb]
      exact hgen
    · rw [if_neg hb]
      simp only [beq_iff_eq] at hb
      exact Nat.pos_of_ne_zero hb
  · rw [List.length_take]
    exact min_le_left _ _

/-- Witness for C9 at a concrete input. -/
theorem keyFindings_length_witness :
    1 ≤ (generateKeyFindings emptyRaw).length ∧
    (generateKeyFindings emptyRaw).length ≤ 3 :=
  keyFindings_length emptyRaw

/-- C10: the connected nodes returned by `generateKnowledgeGraph` have
pairwise-distinct names, and none of them is named `"Space Biology"`. -/
theorem nodes_distinct_no_space_biology (item : RawItem) :
    ((generateKnowledgeGraph item).connectedNodes.map KGNode.name).Nodup ∧
    ∀ n ∈ (generateKnowledgeGraph item).connectedNodes,
      n.name ≠ "Space Biology" := by
  obtain ⟨-, h2, h3⟩ := kginv_encounteredState item
  have hperm := perm_stableSortDesc nodeLt (encounteredNodes item)
  constructor
  · have hnodup : ((stableSortDesc nodeLt (encounteredNodes item)).map
        KGNode.name).Nodup := ((hperm.map KGNode.name).nodup_iff).2 h2
    have hsub : List.Sublist
        (((stableSortDesc nodeLt (encounteredNodes item)).take 4).map KGNode.name)
        ((stableSortDesc nodeLt (encounteredNodes item)).map KGNode.name) :=
      List.Sublist.map _ (List.take_sublist 4 _)
    exact List.Nodup.sublist hsub hnodup
  · intro n hn
    have hn' : n ∈ encounteredNodes item :=
      hperm.mem_iff.1 (List.take_subset 4 _ hn)
    exact h3 n hn'

/-- Witness for C10 at a concrete input. -/
theorem nodes_distinct_no_space_biology_witness :
    ((generateKnowledgeGraph tempusItem).connectedNodes.map KGNode.name).Nodup :=
  (nodes_distinct_no_space_biology tempusItem).1

end NasaSearch
